import Mathlib

/-!
Verification of the silkchain-sdk-go deliver-client connection core and the
channel-config resource helpers.

The development shallowly embeds:

* the protobuf wire format (varints and fields of wire type 0 and 2), which is
  the externally fixed serialization used by `proto.Marshal` / `proto.Unmarshal`
  for the message schemas this code touches (`common.Envelope`, `common.Payload`,
  `common.Header`, `common.ChannelHeader`, `common.SignatureHeader`,
  `common.ConfigUpdateEnvelope`, `common.ConfigSignature`);
* `DeliverConnection.createSignedEnvelope`, `DeliverConnection.Send` and the
  `DeliverConnection.Receive` loop from
  `pkg/fab/events/deliverclient/connection/connection.go`;
* `CreateConfigSignature` and `ExtractChannelConfig` from the resource package.

Fallible external collaborators (identity retrieval, nonce generation, the
signing manager, the user message's own marshaling, stream writes and reads) are
modelled as environment-supplied outcomes; calls into the signing capability are
logged so that the exact bytes handed to it can be stated.  Go panics are
modelled by a dedicated `crash` outcome.
-/
/-! ## Bytes and protobuf varints -/
/-- A byte string, as a list of byte values. -/
abbrev Bytes := List Nat

/-- Fuel-indexed base-128 varint encoder (fuel `n + 1` always suffices). -/
def varintEncodeAux : Nat → Nat → Bytes
  | 0, _ => []
  | fuel + 1, n =>
    if n < 128 then [n] else (n % 128 + 128) :: varintEncodeAux fuel (n / 128)

/-- Protobuf base-128 varint encoding of a natural number. -/
def varintEncode (n : Nat) : Bytes := varintEncodeAux (n + 1) n

/-- Protobuf varint decoder: returns the decoded value and the remaining bytes. -/
def varintDecode : Bytes → Option (Nat × Bytes)
  | [] => none
  | b :: rest =>
    if b < 128 then some (b, rest)
    else
      match varintDecode rest with
      | none => none
      | some (n, rest2) => some (b - 128 + 128 * n, rest2)

/-! ## Protobuf fields -/
/-- A decoded protobuf field value: wire type 0 (varint) or 2 (length-delimited). -/
inductive FieldVal where
  | vint (n : Nat)
  | lenDelim (b : Bytes)
deriving DecidableEq

/-- A protobuf field: field number paired with its value. -/
abbrev PbField := Nat × FieldVal

/-- Parse one protobuf field off the front of a byte string.  Wire types other
than 0 and 2 and field number 0 are rejected, as is any truncated varint or
length-delimited field. -/
def parseOneField (l : Bytes) : Option (PbField × Bytes) :=
  (varintDecode l).bind fun p =>
    if p.1 / 8 = 0 then none
    else if p.1 % 8 = 0 then
      (varintDecode p.2).map fun q => ((p.1 / 8, FieldVal.vint q.1), q.2)
    else if p.1 % 8 = 2 then
      (varintDecode p.2).bind fun q =>
        if q.1 ≤ q.2.length then
          some ((p.1 / 8, FieldVal.lenDelim (q.2.take q.1)), q.2.drop q.1)
        else none
    else none

/-- Fuel-indexed parser splitting a byte string into all its protobuf fields.
Fuel `input.length` always suffices since every field consumes at least one
byte. -/
def parseFieldsAux : Nat → Bytes → Option (List PbField)
  | _, [] => some []
  | 0, _ :: _ => none
  | fuel + 1, b :: bs =>
    (parseOneField (b :: bs)).bind fun p =>
      (parseFieldsAux fuel p.2).map fun fs => p.1 :: fs

/-- Parse a byte string into its protobuf field list, modelling the field
scan performed by `proto.Unmarshal`. -/
def parseFields (input : Bytes) : Option (List PbField) :=
  parseFieldsAux input.length input

/-- Encoding of one length-delimited field (wire type 2). -/
def encLen (f : Nat) (b : Bytes) : Bytes :=
  varintEncode (8 * f + 2) ++ varintEncode b.length ++ b

/-- Encoding of one varint field (wire type 0). -/
def encVarint (f : Nat) (n : Nat) : Bytes :=
  varintEncode (8 * f) ++ varintEncode n

/-! ## Proto3 message encoding

Messages are marshaled the way `golang/protobuf` marshals proto3 messages:
fields appear in field-number order; scalar fields equal to their zero value
(empty bytes, zero integers) are omitted; a present submessage pointer is
always emitted, even when its own encoding is empty. -/
/-- A bytes/string field: omitted when empty. -/
def optLen (f : Nat) (b : Bytes) : Bytes :=
  if b = [] then [] else encLen f b

/-- A varint field: omitted when zero. -/
def optVarint (f : Nat) (n : Nat) : Bytes :=
  if n = 0 then [] else encVarint f n

/-- A submessage field holding already-encoded bytes: omitted only when the
pointer is nil. -/
def optMsg (f : Nat) : Option Bytes → Bytes
  | none => []
  | some b => encLen f b

/-! ## The message schemas used by this code -/
/-- `common.Envelope`: a marshaled payload (field 1) and a signature over it
(field 2). -/
structure Envelope where
  payload : Bytes := []
  signature : Bytes := []
deriving DecidableEq

/-- `proto.Marshal` for `common.Envelope`. -/
def Envelope.encode (e : Envelope) : Bytes :=
  optLen 1 e.payload ++ optLen 2 e.signature

/-- The protobuf fields of an encoded `common.Envelope`. -/
def Envelope.fieldList (e : Envelope) : List PbField :=
  (if e.payload = [] then [] else [(1, FieldVal.lenDelim e.payload)]) ++
    (if e.signature = [] then [] else [(2, FieldVal.lenDelim e.signature)])

/-- Field-merge loop of `proto.Unmarshal` for `common.Envelope`: known fields
must carry their declared wire type (last occurrence wins), unknown fields are
skipped. -/
def Envelope.applyFields : Envelope → List PbField → Option Envelope
  | e, [] => some e
  | e, (1, FieldVal.lenDelim b) :: fs => Envelope.applyFields { e with payload := b } fs
  | e, (2, FieldVal.lenDelim b) :: fs => Envelope.applyFields { e with signature := b } fs
  | _, (1, FieldVal.vint _) :: _ => none
  | _, (2, FieldVal.vint _) :: _ => none
  | e, (_, _) :: fs => Envelope.applyFields e fs

/-- `proto.Unmarshal` for `common.Envelope`. -/
def Envelope.decode (b : Bytes) : Option Envelope :=
  (parseFields b).bind fun fs => Envelope.applyFields {} fs

/-- `common.Header`: marshaled channel header (field 1) and marshaled
signature header (field 2). -/
structure Header where
  channelHeader : Bytes := []
  signatureHeader : Bytes := []
deriving DecidableEq

/-- `proto.Marshal` for `common.Header`. -/
def Header.encode (h : Header) : Bytes :=
  optLen 1 h.channelHeader ++ optLen 2 h.signatureHeader

/-- The protobuf fields of an encoded `common.Header`. -/
def Header.fieldList (h : Header) : List PbField :=
  (if h.channelHeader = [] then [] else [(1, FieldVal.lenDelim h.channelHeader)]) ++
    (if h.signatureHeader = [] then [] else [(2, FieldVal.lenDelim h.signatureHeader)])

/-- Field-merge loop of `proto.Unmarshal` for `common.Header`. -/
def Header.applyFields : Header → List PbField → Option Header
  | h, [] => some h
  | h, (1, FieldVal.lenDelim b) :: fs => Header.applyFields { h with channelHeader := b } fs
  | h, (2, FieldVal.lenDelim b) :: fs => Header.applyFields { h with signatureHeader := b } fs
  | _, (1, FieldVal.vint _) :: _ => none
  | _, (2, FieldVal.vint _) :: _ => none
  | h, (_, _) :: fs => Header.applyFields h fs

/-- `proto.Unmarshal` for `common.Header`. -/
def Header.decode (b : Bytes) : Option Header :=
  (parseFields b).bind fun fs => Header.applyFields {} fs

/-- `common.SignatureHeader`: creator identity (field 1) and a fresh nonce
(field 2). -/
structure SignatureHeader where
  creator : Bytes := []
  nonce : Bytes := []
deriving DecidableEq

/-- `proto.Marshal` for `common.SignatureHeader`. -/
def SignatureHeader.encode (h : SignatureHeader) : Bytes :=
  optLen 1 h.creator ++ optLen 2 h.nonce

/-- The protobuf fields of an encoded `common.SignatureHeader`. -/
def SignatureHeader.fieldList (h : SignatureHeader) : List PbField :=
  (if h.creator = [] then [] else [(1, FieldVal.lenDelim h.creator)]) ++
    (if h.nonce = [] then [] else [(2, FieldVal.lenDelim h.nonce)])

/-- Field-merge loop of `proto.Unmarshal` for `common.SignatureHeader`. -/
def SignatureHeader.applyFields : SignatureHeader → List PbField → Option SignatureHeader
  | h, [] => some h
  | h, (1, FieldVal.lenDelim b) :: fs => SignatureHeader.applyFields { h with creator := b } fs
  | h, (2, FieldVal.lenDelim b) :: fs => SignatureHeader.applyFields { h with nonce := b } fs
  | _, (1, FieldVal.vint _) :: _ => none
  | _, (2, FieldVal.vint _) :: _ => none
  | h, (_, _) :: fs => SignatureHeader.applyFields h fs

/-- `proto.Unmarshal` for `common.SignatureHeader`. -/
def SignatureHeader.decode (b : Bytes) : Option SignatureHeader :=
  (parseFields b).bind fun fs => SignatureHeader.applyFields {} fs

/-- `common.ConfigSignature`: marshaled signature header (field 1) and the
signature bytes (field 2). -/
structure ConfigSignature where
  signatureHeader : Bytes := []
  signature : Bytes := []
deriving DecidableEq

/-- `proto.Marshal` for `common.ConfigSignature`. -/
def ConfigSignature.encode (c : ConfigSignature) : Bytes :=
  optLen 1 c.signatureHeader ++ optLen 2 c.signature

/-- The protobuf fields of an encoded `common.ConfigSignature`. -/
def ConfigSignature.fieldList (c : ConfigSignature) : List PbField :=
  (if c.signatureHeader = [] then [] else [(1, FieldVal.lenDelim c.signatureHeader)]) ++
    (if c.signature = [] then [] else [(2, FieldVal.lenDelim c.signature)])

/-- Field-merge loop of `proto.Unmarshal` for `common.ConfigSignature`. -/
def ConfigSignature.applyFields : ConfigSignature → List PbField → Option ConfigSignature
  | c, [] => some c
  | c, (1, FieldVal.lenDelim b) :: fs =>
    ConfigSignature.applyFields { c with signatureHeader := b } fs
  | c, (2, FieldVal.lenDelim b) :: fs =>
    ConfigSignature.applyFields { c with signature := b } fs
  | _, (1, FieldVal.vint _) :: _ => none
  | _, (2, FieldVal.vint _) :: _ => none
  | c, (_, _) :: fs => ConfigSignature.applyFields c fs

/-- `proto.Unmarshal` for `common.ConfigSignature`. -/
def ConfigSignature.decode (b : Bytes) : Option ConfigSignature :=
  (parseFields b).bind fun fs => ConfigSignature.applyFields {} fs

/-- `common.ChannelHeader`, restricted to the fields this code reads or
writes: message type (field 1), version (field 2), timestamp submessage kept
as its encoded bytes (field 3), channel identifier (field 4), epoch (field 6)
and TLS certificate hash (field 8). -/
structure ChannelHeader where
  type : Nat := 0
  version : Nat := 0
  timestamp : Option Bytes := none
  channelId : Bytes := []
  epoch : Nat := 0
  tlsCertHash : Bytes := []
deriving DecidableEq

/-- `proto.Marshal` for `common.ChannelHeader`. -/
def ChannelHeader.encode (h : ChannelHeader) : Bytes :=
  optVarint 1 h.type ++ optVarint 2 h.version ++ optMsg 3 h.timestamp ++
    optLen 4 h.channelId ++ optVarint 6 h.epoch ++ optLen 8 h.tlsCertHash

/-- The protobuf fields of an encoded `common.ChannelHeader`. -/
def ChannelHeader.fieldList (h : ChannelHeader) : List PbField :=
  (if h.type = 0 then [] else [(1, FieldVal.vint h.type)]) ++
    (if h.version = 0 then [] else [(2, FieldVal.vint h.version)]) ++
    (match h.timestamp with
     | none => []
     | some b => [(3, FieldVal.lenDelim b)]) ++
    (if h.channelId = [] then [] else [(4, FieldVal.lenDelim h.channelId)]) ++
    (if h.epoch = 0 then [] else [(6, FieldVal.vint h.epoch)]) ++
    (if h.tlsCertHash = [] then [] else [(8, FieldVal.lenDelim h.tlsCertHash)])

/-- Field-merge loop of `proto.Unmarshal` for `common.ChannelHeader`. -/
def ChannelHeader.applyFields : ChannelHeader → List PbField → Option ChannelHeader
  | h, [] => some h
  | h, (1, FieldVal.vint n) :: fs => ChannelHeader.applyFields { h with type := n } fs
  | h, (2, FieldVal.vint n) :: fs => ChannelHeader.applyFields { h with version := n } fs
  | h, (3, FieldVal.lenDelim b) :: fs =>
    ChannelHeader.applyFields { h with timestamp := some b } fs
  | h, (4, FieldVal.lenDelim b) :: fs =>
    ChannelHeader.applyFields { h with channelId := b } fs
  | h, (6, FieldVal.vint n) :: fs => ChannelHeader.applyFields { h with epoch := n } fs
  | h, (8, FieldVal.lenDelim b) :: fs =>
    ChannelHeader.applyFields { h with tlsCertHash := b } fs
  | _, (1, FieldVal.lenDelim _) :: _ => none
  | _, (2, FieldVal.lenDelim _) :: _ => none
  | _, (3, FieldVal.vint _) :: _ => none
  | _, (4, FieldVal.vint _) :: _ => none
  | _, (6, FieldVal.lenDelim _) :: _ => none
  | _, (8, FieldVal.vint _) :: _ => none
  | h, (_, _) :: fs => ChannelHeader.applyFields h fs

/-- `proto.Unmarshal` for `common.ChannelHeader`. -/
def ChannelHeader.decode (b : Bytes) : Option ChannelHeader :=
  (parseFields b).bind fun fs => ChannelHeader.applyFields {} fs

/-- `common.Payload`: header submessage (field 1, a pointer in Go — emitted
whenever non-nil) and the data bytes (field 2). -/
structure Payload where
  header : Option Header := none
  data : Bytes := []
deriving DecidableEq

/-- `proto.Marshal` for `common.Payload`. -/
def Payload.encode (p : Payload) : Bytes :=
  optMsg 1 (p.header.map Header.encode) ++ optLen 2 p.data

/-- The protobuf fields of an encoded `common.Payload`. -/
def Payload.fieldList (p : Payload) : List PbField :=
  (match p.header with
   | none => []
   | some h => [(1, FieldVal.lenDelim (Header.encode h))]) ++
    (if p.data = [] then [] else [(2, FieldVal.lenDelim p.data)])

/-- Field-merge loop of `proto.Unmarshal` for `common.Payload`: the header
submessage bytes are themselves unmarshaled, and a malformed submessage fails
the whole unmarshal. -/
def Payload.applyFields : Payload → List PbField → Option Payload
  | p, [] => some p
  | p, (1, FieldVal.lenDelim b) :: fs =>
    match Header.decode b with
    | none => none
    | some h => Payload.applyFields { p with header := some h } fs
  | p, (2, FieldVal.lenDelim b) :: fs => Payload.applyFields { p with data := b } fs
  | _, (1, FieldVal.vint _) :: _ => none
  | _, (2, FieldVal.vint _) :: _ => none
  | p, (_, _) :: fs => Payload.applyFields p fs

/-- `proto.Unmarshal` for `common.Payload`. -/
def Payload.decode (b : Bytes) : Option Payload :=
  (parseFields b).bind fun fs => Payload.applyFields {} fs

/-- `common.ConfigUpdateEnvelope`: the marshaled config update (field 1) and
its endorsing signatures (repeated field 2). -/
structure ConfigUpdateEnvelope where
  configUpdate : Bytes := []
  signatures : List ConfigSignature := []
deriving DecidableEq

/-- Encoding of the repeated `signatures` field: every element is emitted,
zero-valued or not. -/
def ConfigUpdateEnvelope.encodeSigs : List ConfigSignature → Bytes
  | [] => []
  | s :: ss => encLen 2 (ConfigSignature.encode s) ++ ConfigUpdateEnvelope.encodeSigs ss

/-- `proto.Marshal` for `common.ConfigUpdateEnvelope`. -/
def ConfigUpdateEnvelope.encode (c : ConfigUpdateEnvelope) : Bytes :=
  optLen 1 c.configUpdate ++ ConfigUpdateEnvelope.encodeSigs c.signatures

/-- The protobuf fields contributed by the repeated `signatures` field. -/
def ConfigUpdateEnvelope.sigFields : List ConfigSignature → List PbField
  | [] => []
  | s :: ss => (2, FieldVal.lenDelim (ConfigSignature.encode s)) ::
      ConfigUpdateEnvelope.sigFields ss

/-- Field-merge loop of `proto.Unmarshal` for `common.ConfigUpdateEnvelope`:
each occurrence of field 2 is unmarshaled as a `ConfigSignature` and appended. -/
def ConfigUpdateEnvelope.applyFields :
    ConfigUpdateEnvelope → List PbField → Option ConfigUpdateEnvelope
  | c, [] => some c
  | c, (1, FieldVal.lenDelim b) :: fs =>
    ConfigUpdateEnvelope.applyFields { c with configUpdate := b } fs
  | c, (2, FieldVal.lenDelim b) :: fs =>
    match ConfigSignature.decode b with
    | none => none
    | some s =>
      ConfigUpdateEnvelope.applyFields { c with signatures := c.signatures ++ [s] } fs
  | _, (1, FieldVal.vint _) :: _ => none
  | _, (2, FieldVal.vint _) :: _ => none
  | c, (_, _) :: fs => ConfigUpdateEnvelope.applyFields c fs

/-- `proto.Unmarshal` for `common.ConfigUpdateEnvelope`. -/
def ConfigUpdateEnvelope.decode (b : Bytes) : Option ConfigUpdateEnvelope :=
  (parseFields b).bind fun fs => ConfigUpdateEnvelope.applyFields {} fs

/-! ## The deliver connection operations

`connection.go` and the resource package, with the external collaborators
(identity, nonce generation, signing, the user message's marshaling, the
stream) supplied as environments.  A Go panic is modelled by the `crash`
outcome. -/
/-- Result of a Go call that can return normally, return an error, or panic. -/
inductive Outcome (α : Type) where
  | ok (a : α)
  | error (e : String)
  | crash (msg : String)
deriving DecidableEq

/-- The connection's stream handle as seen through `c.Stream()`: nil, present
but of an unexpected dynamic type, or a valid deliver stream. -/
inductive StreamSlot where
  | noStream
  | wrongType
  | valid
deriving DecidableEq

/-- The state of the underlying connection that `DeliverConnection` reads:
channel identifier, TLS certificate hash, closed flag and stream handle. -/
structure DeliverConnection where
  channelID : Bytes
  tlsCertHash : Bytes
  closed : Bool
  stream : StreamSlot
deriving DecidableEq

/-- Environment for one `createSignedEnvelope` call, in the order the code
consults the collaborators: `marshalMsg` is the outcome of `proto.Marshal` on
the caller-supplied message; `identity` of `c.Context().Identity()`; `nonce`
of `crypto.GetRandomNonce()`; `payloadMarshal` is `some e` when
`utils.MarshalOrPanic` of the assembled payload fails with error `e` (the Go
helper then panics); `sign` is the signing manager; `timestamp` is the encoded
`Timestamp` that `utils.MakeChannelHeader` takes from the current time. -/
structure SignEnv where
  marshalMsg : Except String Bytes
  identity : Except String Bytes
  nonce : Except String Bytes
  payloadMarshal : Option String
  sign : Bytes → Except String Bytes
  timestamp : Bytes

/-- `DeliverConnection.createSignedEnvelope` (connection.go): build a channel
header tagged `HeaderType_DELIVER_SEEK_INFO` (value 5) with version 0 and
epoch 0, carrying the connection's channel ID and TLS certificate hash;
marshal the message; fetch the identity; generate a nonce; assemble and
marshal the payload; sign the marshaled message data.  Returns the outcome
together with the byte strings passed to `SigningManager().Sign`. -/
def DeliverConnection.createSignedEnvelope (c : DeliverConnection) (env : SignEnv) :
    Outcome Envelope × List Bytes :=
  let payloadChannelHeader : ChannelHeader :=
    { type := 5, version := 0, timestamp := some env.timestamp,
      channelId := c.channelID, epoch := 0, tlsCertHash := c.tlsCertHash }
  match env.marshalMsg with
  | .error e => (.error e, [])
  | .ok data =>
    match env.identity with
    | .error e => (.error e, [])
    | .ok identity =>
      match env.nonce with
      | .error e => (.error e, [])
      | .ok nonce =>
        let payloadSignatureHeader : SignatureHeader :=
          { creator := identity, nonce := nonce }
        match env.payloadMarshal with
        | some e => (.crash e, [])
        | none =>
          let paylBytes : Bytes :=
            Payload.encode
              { header := some
                  { channelHeader := ChannelHeader.encode payloadChannelHeader,
                    signatureHeader := SignatureHeader.encode payloadSignatureHeader },
                data := data }
          match env.sign data with
          | .error e => (.error e, [data])
          | .ok signature =>
            (.ok { payload := paylBytes, signature := signature }, [data])

/-- `DeliverConnection.Send` (connection.go): refuse a closed connection,
build the signed envelope, then call `Send` on the stream obtained from
`deliverStream()`.  `deliverStream()` panics on a handle of the wrong dynamic
type, and when the handle is nil the method call on the nil interface panics.
`writeResult` is the outcome of `stream.Send(env)` on a valid stream.  Returns
the call outcome, the sign-call log, and the envelopes written to the
stream. -/
def DeliverConnection.Send (c : DeliverConnection) (env : SignEnv)
    (writeResult : Except String Unit) :
    Outcome Unit × List Bytes × List Envelope :=
  if c.closed then (.error "connection is closed", [], [])
  else
    match DeliverConnection.createSignedEnvelope c env with
    | (.error e, log) => (.error e, log, [])
    | (.crash m, log) => (.crash m, log, [])
    | (.ok e, log) =>
      match c.stream with
      | .noStream =>
        (.crash "invalid memory address or nil pointer dereference", log, [])
      | .wrongType => (.crash "invalid DeliverStream type", log, [])
      | .valid =>
        match writeResult with
        | .error err => (.error err, log, [e])
        | .ok _ => (.ok (), log, [e])

/-- Environment for one `CreateConfigSignature` call: outcomes of identity
retrieval, nonce generation, the signature header's marshaling
(`some e` = fails with error `e`), and the signing manager. -/
structure ConfigSignEnv where
  identity : Except String Bytes
  nonce : Except String Bytes
  sigHeaderMarshal : Option String
  sign : Bytes → Except String Bytes

/-- `CreateConfigSignature` (resource package): build a signature header from
the identity and a fresh nonce, marshal it, and sign the marshaled header
bytes concatenated with the config bytes.  Each failure is wrapped with its
own message.  Returns the outcome together with the byte strings passed to
`SigningManager().Sign`. -/
def CreateConfigSignature (env : ConfigSignEnv) (config : Bytes) :
    Except String ConfigSignature × List Bytes :=
  match env.identity with
  | .error e => (.error ("failed to get user context's identity: " ++ e), [])
  | .ok creator =>
    match env.nonce with
    | .error e => (.error ("nonce creation failed: " ++ e), [])
    | .ok nonce =>
      let signatureHeader : SignatureHeader := { creator := creator, nonce := nonce }
      match env.sigHeaderMarshal with
      | some e => (.error ("marshal signatureHeader failed: " ++ e), [])
      | none =>
        let signatureHeaderBytes := SignatureHeader.encode signatureHeader
        let signingBytes := signatureHeaderBytes ++ config
        match env.sign signingBytes with
        | .error e =>
          (.error ("signing of channel config failed: " ++ e), [signingBytes])
        | .ok signature =>
          (.ok { signatureHeader := signatureHeaderBytes, signature := signature },
            [signingBytes])

/-- Which layer of `ExtractChannelConfig`'s three-layer unwrap failed. -/
inductive UnwrapError where
  | configEnvelope
  | envelopePayload
  | configUpdateEnvelope
deriving DecidableEq

/-- The wrap message `ExtractChannelConfig` attaches to each layer's error. -/
def UnwrapError.goMessage : UnwrapError → String
  | .configEnvelope => "unmarshal config envelope failed"
  | .envelopePayload => "unmarshal envelope payload failed"
  | .configUpdateEnvelope => "unmarshal config update envelope"

/-- `ExtractChannelConfig` (resource package): unmarshal the envelope, then
its payload, then the config update envelope, and return the raw
`ConfigUpdate` bytes; any layer's failure aborts with that layer's wrapped
error. -/
def ExtractChannelConfig (configEnvelope : Bytes) : Except UnwrapError Bytes :=
  match Envelope.decode configEnvelope with
  | none => .error .configEnvelope
  | some envelope =>
    match Payload.decode envelope.payload with
    | none => .error .envelopePayload
    | some payload =>
      match ConfigUpdateEnvelope.decode payload.data with
      | none => .error .configUpdateEnvelope
      | some configUpdateEnvelope => .ok configUpdateEnvelope.configUpdate

/-! ## The receive loop -/
/-- Outcome of one `stream.Recv()` call: a message, the `io.EOF` sentinel, or
another error. -/
inductive ReadResult (μ : Type) where
  | msg (m : μ)
  | eof
  | fail (e : String)
deriving DecidableEq

/-- What one iteration of the receive loop observes: the stream handle at the
top of the loop, the read result, and the closed flag re-read after the read
returns.  Handle and flag are observed afresh every iteration because the
external connection may change them concurrently. -/
structure Step (μ : Type) where
  stream : StreamSlot
  read : ReadResult μ
  closedAfter : Bool
deriving DecidableEq

/-- What the receive loop sends into the caller's event channel: a forwarded
message or a `DisconnectedEvent` carrying an error. -/
inductive RecvEvent (μ : Type) where
  | msg (m : μ)
  | disconnected (e : String)
deriving DecidableEq

/-- How a run of the receive loop against a finite observation trace ended:
the loop broke out, the trace was exhausted with the loop still running, or
the loop panicked on the stream type assertion.  Each constructor carries the
events emitted, in order. -/
inductive LoopResult (μ : Type) where
  | terminated (events : List (RecvEvent μ))
  | exhausted (events : List (RecvEvent μ))
  | crashed (events : List (RecvEvent μ))
deriving DecidableEq

/-- Prepend an emitted event to a loop result. -/
def LoopResult.consEvent {μ : Type} (e : RecvEvent μ) : LoopResult μ → LoopResult μ
  | .terminated es => .terminated (e :: es)
  | .exhausted es => .exhausted (e :: es)
  | .crashed es => .crashed (e :: es)

/-- The events a loop result emitted. -/
def LoopResult.events {μ : Type} : LoopResult μ → List (RecvEvent μ)
  | .terminated es => es
  | .exhausted es => es
  | .crashed es => es

/-- `DeliverConnection.Receive` (connection.go), run against a finite trace of
per-iteration observations.  Each iteration: observe the stream (nil breaks
the loop silently; a wrong dynamic type panics inside `deliverStream`), read,
re-check the closed flag (a closed connection breaks silently, discarding the
read), break silently on `io.EOF`, emit one disconnected event and break on
any other error, otherwise forward the message and continue. -/
def DeliverConnection.Receive {μ : Type} : List (Step μ) → LoopResult μ
  | [] => .exhausted []
  | s :: rest =>
    match s.stream with
    | .noStream => .terminated []
    | .wrongType => .crashed []
    | .valid =>
      if s.closedAfter then .terminated []
      else
        match s.read with
        | .eof => .terminated []
        | .fail e => .terminated [.disconnected e]
        | .msg m => (DeliverConnection.Receive rest).consEvent (.msg m)

/-- A loop iteration that successfully reads message `m` from a live stream
of a connection that stays open. -/
def msgStep {μ : Type} (m : μ) : Step μ :=
  { stream := .valid, read := .msg m, closedAfter := false }

/-- Is this event a disconnected event? -/
def RecvEvent.isDisconnected {μ : Type} : RecvEvent μ → Bool
  | .msg _ => false
  | .disconnected _ => true

theorem varintEncode_small {n : Nat} (h : n < 128) : varintEncode n = [n] := by
  simp [varintEncode, varintEncodeAux, h]

theorem varintDecode_length :
    ∀ {l : Bytes} {n : Nat} {rest : Bytes},
      varintDecode l = some (n, rest) → rest.length < l.length := by
  intro l
  induction l with
  | nil => intro n rest h; simp [varintDecode] at h
  | cons b bs ih =>
    intro n rest h
    by_cases hb : b < 128
    · simp only [varintDecode, if_pos hb, Option.some.injEq, Prod.mk.injEq] at h
      obtain ⟨-, h2⟩ := h
      subst h2
      simp only [List.length_cons]
      omega
    · simp only [varintDecode, if_neg hb] at h
      cases hd : varintDecode bs with
      | none => rw [hd] at h; simp at h
      | some p =>
        obtain ⟨n', rest2⟩ := p
        rw [hd] at h
        simp at h
        have := ih hd
        rw [← h.2]
        simp [List.length_cons]
        omega

theorem varintDecode_encodeAux :
    ∀ (fuel n : Nat) (rest : Bytes), n < fuel →
      varintDecode (varintEncodeAux fuel n ++ rest) = some (n, rest) := by
  intro fuel
  induction fuel with
  | zero => intro n rest h; omega
  | succ f ih =>
    intro n rest h
    by_cases hn : n < 128
    · simp [varintEncodeAux, hn, varintDecode]
    · have hrec : n / 128 < f := by
        have h1 : n / 128 < n := Nat.div_lt_self (by omega) (by omega)
        omega
      have hbig : ¬ (n % 128 + 128 < 128) := by omega
      have harith : n % 128 + 128 - 128 + 128 * (n / 128) = n := by omega
      simp [varintEncodeAux, if_neg hn, List.cons_append, varintDecode, if_neg hbig,
        ih (n / 128) rest hrec, harith]
      omega

/-- Decoding inverts encoding, leaving trailing bytes untouched. -/
theorem varintDecode_encode (n : Nat) (rest : Bytes) :
    varintDecode (varintEncode n ++ rest) = some (n, rest) :=
  varintDecode_encodeAux (n + 1) n rest (Nat.lt_succ_self n)

theorem parseOneField_length :
    ∀ {l : Bytes} {fd : PbField} {rest : Bytes},
      parseOneField l = some (fd, rest) → rest.length < l.length := by
  intro l fd rest h
  cases hv : varintDecode l with
  | none => simp [parseOneField, hv] at h
  | some p =>
    have h1 : p.2.length < l.length := varintDecode_length hv
    simp only [parseOneField, hv, Option.some_bind] at h
    by_cases ht0 : p.1 / 8 = 0
    · rw [if_pos ht0] at h; exact absurd h (by simp)
    · rw [if_neg ht0] at h
      by_cases htv : p.1 % 8 = 0
      · rw [if_pos htv] at h
        cases hv2 : varintDecode p.2 with
        | none => rw [hv2] at h; exact absurd h (by simp)
        | some q =>
          have h2 : q.2.length < p.2.length := varintDecode_length hv2
          rw [hv2] at h
          simp only [Option.map_some', Option.some.injEq, Prod.mk.injEq] at h
          obtain ⟨-, h4⟩ := h
          subst h4
          omega
      · rw [if_neg htv] at h
        by_cases htl : p.1 % 8 = 2
        · rw [if_pos htl] at h
          cases hv2 : varintDecode p.2 with
          | none => rw [hv2] at h; exact absurd h (by simp)
          | some q =>
            have h2 : q.2.length < p.2.length := varintDecode_length hv2
            rw [hv2] at h
            simp only [Option.some_bind] at h
            by_cases hq : q.1 ≤ q.2.length
            · rw [if_pos hq] at h
              simp only [Option.some.injEq, Prod.mk.injEq] at h
              obtain ⟨-, h4⟩ := h
              subst h4
              have h5 : (q.2.drop q.1).length ≤ q.2.length := by simp
              omega
            · rw [if_neg hq] at h; exact absurd h (by simp)
        · rw [if_neg htl] at h; exact absurd h (by simp)

theorem parseFieldsAux_nil (fuel : Nat) : parseFieldsAux fuel [] = some [] := by
  cases fuel <;> rfl

/-- The field parser is insensitive to fuel, as long as the fuel covers the
input length. -/
theorem parseFieldsAux_fuel :
    ∀ (fuel₁ : Nat), ∀ (fuel₂ : Nat) (l : Bytes),
      l.length ≤ fuel₁ → l.length ≤ fuel₂ →
      parseFieldsAux fuel₁ l = parseFieldsAux fuel₂ l := by
  intro fuel₁
  induction fuel₁ using Nat.strong_induction_on with
  | _ fuel₁ ih =>
    intro fuel₂ l h1 h2
    match l with
    | [] => rw [parseFieldsAux_nil, parseFieldsAux_nil]
    | b :: bs =>
      match fuel₁, fuel₂ with
      | 0, _ => simp at h1
      | _ + 1, 0 => simp at h2
      | g₁ + 1, g₂ + 1 =>
        simp only [parseFieldsAux]
        cases ho : parseOneField (b :: bs) with
        | none => rfl
        | some p =>
          have hlen : p.2.length < (b :: bs).length := parseOneField_length ho
          simp only [List.length_cons] at hlen h1 h2
          simp only [Option.some_bind]
          rw [ih g₁ (by omega) g₂ p.2 (by omega) (by omega)]

theorem parseFieldsAux_eq_parseFields {fuel : Nat} {l : Bytes} (h : l.length ≤ fuel) :
    parseFieldsAux fuel l = parseFields l :=
  parseFieldsAux_fuel fuel l.length l h (Nat.le_refl _)

theorem parseFields_nil : parseFields [] = some [] := rfl

/-- Peeling one parsed field off the front of the input. -/
theorem parseFields_cons {l : Bytes} {fd : PbField} {rest : Bytes}
    (h : parseOneField l = some (fd, rest)) :
    parseFields l = (parseFields rest).map fun fs => fd :: fs := by
  match l with
  | [] => simp [parseOneField, varintDecode] at h
  | b :: bs =>
    have hlen : rest.length < (b :: bs).length := parseOneField_length h
    simp only [List.length_cons] at hlen
    rw [parseFields]
    simp only [List.length_cons, parseFieldsAux, h, Option.some_bind]
    rw [parseFieldsAux_eq_parseFields (by omega)]

theorem parseOneField_encLen (f : Nat) (h1 : 1 ≤ f) (h2 : f ≤ 15) (b rest : Bytes) :
    parseOneField (encLen f b ++ rest) = some ((f, FieldVal.lenDelim b), rest) := by
  have htag : 8 * f + 2 < 128 := by omega
  have hdiv : (8 * f + 2) / 8 = f := by omega
  have hne2 : ¬ ((8 * f + 2) % 8 = 0) := by omega
  have hmod : (8 * f + 2) % 8 = 2 := by omega
  have hne0 : ¬ ((8 * f + 2) / 8 = 0) := by omega
  rw [show encLen f b ++ rest
      = (8 * f + 2) :: (varintEncode b.length ++ (b ++ rest)) by
    simp [encLen, varintEncode_small htag]]
  rw [parseOneField,
    show varintDecode ((8 * f + 2) :: (varintEncode b.length ++ (b ++ rest)))
      = some (8 * f + 2, varintEncode b.length ++ (b ++ rest)) by
      simp [varintDecode, htag]]
  simp only [Option.some_bind]
  rw [if_neg hne0, if_neg hne2, if_pos hmod, varintDecode_encode b.length (b ++ rest),
    Option.some_bind]
  have hble : b.length ≤ (b ++ rest).length := by simp
  rw [if_pos hble]
  simp [List.take_left, List.drop_left, hdiv]

theorem parseOneField_encVarint (f : Nat) (h1 : 1 ≤ f) (h2 : f ≤ 15) (n : Nat)
    (rest : Bytes) :
    parseOneField (encVarint f n ++ rest) = some ((f, FieldVal.vint n), rest) := by
  have htag : 8 * f < 128 := by omega
  have hdiv : (8 * f) / 8 = f := by omega
  have hmod : (8 * f) % 8 = 0 := by omega
  have hne0 : ¬ ((8 * f) / 8 = 0) := by omega
  rw [show encVarint f n ++ rest = (8 * f) :: (varintEncode n ++ rest) by
    simp [encVarint, varintEncode_small htag]]
  rw [parseOneField,
    show varintDecode ((8 * f) :: (varintEncode n ++ rest))
      = some (8 * f, varintEncode n ++ rest) by
      simp [varintDecode, htag]]
  simp only [Option.some_bind]
  rw [if_neg hne0, if_pos hmod, varintDecode_encode n rest]
  simp [hdiv]

/-- Parsing a well-formed length-delimited field peels it off the front. -/
theorem parseFields_encLen (f : Nat) (h1 : 1 ≤ f) (h2 : f ≤ 15) (b rest : Bytes) :
    parseFields (encLen f b ++ rest) =
      (parseFields rest).map (fun fs => (f, FieldVal.lenDelim b) :: fs) :=
  parseFields_cons (parseOneField_encLen f h1 h2 b rest)

/-- Parsing a well-formed varint field peels it off the front. -/
theorem parseFields_encVarint (f : Nat) (h1 : 1 ≤ f) (h2 : f ≤ 15) (n : Nat)
    (rest : Bytes) :
    parseFields (encVarint f n ++ rest) =
      (parseFields rest).map (fun fs => (f, FieldVal.vint n) :: fs) :=
  parseFields_cons (parseOneField_encVarint f h1 h2 n rest)

theorem parseFields_optLen (f : Nat) (h1 : 1 ≤ f) (h2 : f ≤ 15) (b rest : Bytes) :
    parseFields (optLen f b ++ rest) =
      (parseFields rest).map
        (fun fs => (if b = [] then [] else [(f, FieldVal.lenDelim b)]) ++ fs) := by
  by_cases hb : b = []
  · cases h : parseFields rest <;> simp [optLen, hb, h]
  · simp [optLen, hb, parseFields_encLen f h1 h2 b rest]

theorem parseFields_optVarint (f : Nat) (h1 : 1 ≤ f) (h2 : f ≤ 15) (n : Nat)
    (rest : Bytes) :
    parseFields (optVarint f n ++ rest) =
      (parseFields rest).map
        (fun fs => (if n = 0 then [] else [(f, FieldVal.vint n)]) ++ fs) := by
  by_cases hn : n = 0
  · cases h : parseFields rest <;> simp [optVarint, hn, h]
  · simp [optVarint, hn, parseFields_encVarint f h1 h2 n rest]

theorem parseFields_optMsg (f : Nat) (h1 : 1 ≤ f) (h2 : f ≤ 15) (o : Option Bytes)
    (rest : Bytes) :
    parseFields (optMsg f o ++ rest) =
      (parseFields rest).map
        (fun fs =>
          (match o with
           | none => []
           | some b => [(f, FieldVal.lenDelim b)]) ++ fs) := by
  cases o with
  | none => cases h : parseFields rest <;> simp [optMsg, h]
  | some b => simp [optMsg, parseFields_encLen f h1 h2 b rest]

theorem Envelope_parse_encode (e : Envelope) :
    parseFields (Envelope.encode e) = some (Envelope.fieldList e) := by
  rw [show Envelope.encode e = optLen 1 e.payload ++ (optLen 2 e.signature ++ []) by
    simp [Envelope.encode]]
  rw [parseFields_optLen 1 (by omega) (by omega),
    parseFields_optLen 2 (by omega) (by omega), parseFields_nil]
  simp [Envelope.fieldList]

theorem Envelope_decode_encode (e : Envelope) :
    Envelope.decode (Envelope.encode e) = some e := by
  obtain ⟨p, s⟩ := e
  rw [Envelope.decode, Envelope_parse_encode, Option.some_bind]
  by_cases hp : p = [] <;> by_cases hs : s = [] <;>
    simp [Envelope.fieldList, Envelope.applyFields, hp, hs]

theorem Header_parse_encode (h : Header) :
    parseFields (Header.encode h) = some (Header.fieldList h) := by
  rw [show Header.encode h
      = optLen 1 h.channelHeader ++ (optLen 2 h.signatureHeader ++ []) by
    simp [Header.encode]]
  rw [parseFields_optLen 1 (by omega) (by omega),
    parseFields_optLen 2 (by omega) (by omega), parseFields_nil]
  simp [Header.fieldList]

theorem Header_decode_encode (h : Header) :
    Header.decode (Header.encode h) = some h := by
  obtain ⟨c, s⟩ := h
  rw [Header.decode, Header_parse_encode, Option.some_bind]
  by_cases hc : c = [] <;> by_cases hs : s = [] <;>
    simp [Header.fieldList, Header.applyFields, hc, hs]

theorem SignatureHeader_parse_encode (h : SignatureHeader) :
    parseFields (SignatureHeader.encode h) = some (SignatureHeader.fieldList h) := by
  rw [show SignatureHeader.encode h
      = optLen 1 h.creator ++ (optLen 2 h.nonce ++ []) by
    simp [SignatureHeader.encode]]
  rw [parseFields_optLen 1 (by omega) (by omega),
    parseFields_optLen 2 (by omega) (by omega), parseFields_nil]
  simp [SignatureHeader.fieldList]

theorem SignatureHeader_decode_encode (h : SignatureHeader) :
    SignatureHeader.decode (SignatureHeader.encode h) = some h := by
  obtain ⟨c, n⟩ := h
  rw [SignatureHeader.decode, SignatureHeader_parse_encode, Option.some_bind]
  by_cases hc : c = [] <;> by_cases hn : n = [] <;>
    simp [SignatureHeader.fieldList, SignatureHeader.applyFields, hc, hn]

theorem ConfigSignature_parse_encode (c : ConfigSignature) :
    parseFields (ConfigSignature.encode c) = some (ConfigSignature.fieldList c) := by
  rw [show ConfigSignature.encode c
      = optLen 1 c.signatureHeader ++ (optLen 2 c.signature ++ []) by
    simp [ConfigSignature.encode]]
  rw [parseFields_optLen 1 (by omega) (by omega),
    parseFields_optLen 2 (by omega) (by omega), parseFields_nil]
  simp [ConfigSignature.fieldList]

theorem ConfigSignature_decode_encode (c : ConfigSignature) :
    ConfigSignature.decode (ConfigSignature.encode c) = some c := by
  obtain ⟨h, s⟩ := c
  rw [ConfigSignature.decode, ConfigSignature_parse_encode, Option.some_bind]
  by_cases hh : h = [] <;> by_cases hs : s = [] <;>
    simp [ConfigSignature.fieldList, ConfigSignature.applyFields, hh, hs]

theorem ChannelHeader_parse_encode (h : ChannelHeader) :
    parseFields (ChannelHeader.encode h) = some (ChannelHeader.fieldList h) := by
  rw [show ChannelHeader.encode h
      = optVarint 1 h.type ++ (optVarint 2 h.version ++ (optMsg 3 h.timestamp ++
        (optLen 4 h.channelId ++ (optVarint 6 h.epoch ++
          (optLen 8 h.tlsCertHash ++ []))))) by
    simp [ChannelHeader.encode]]
  rw [parseFields_optVarint 1 (by omega) (by omega),
    parseFields_optVarint 2 (by omega) (by omega),
    parseFields_optMsg 3 (by omega) (by omega),
    parseFields_optLen 4 (by omega) (by omega),
    parseFields_optVarint 6 (by omega) (by omega),
    parseFields_optLen 8 (by omega) (by omega), parseFields_nil]
  simp [ChannelHeader.fieldList]

theorem ChannelHeader_decode_encode (h : ChannelHeader) :
    ChannelHeader.decode (ChannelHeader.encode h) = some h := by
  obtain ⟨ty, ver, ts, ci, ep, th⟩ := h
  rw [ChannelHeader.decode, ChannelHeader_parse_encode, Option.some_bind]
  rcases ts with - | tb <;>
    by_cases h1 : ty = 0 <;> by_cases h2 : ver = 0 <;> by_cases h4 : ci = [] <;>
    by_cases h6 : ep = 0 <;> by_cases h8 : th = [] <;>
    simp [ChannelHeader.fieldList, ChannelHeader.applyFields, h1, h2, h4, h6, h8]

theorem Payload_parse_encode (p : Payload) :
    parseFields (Payload.encode p) = some (Payload.fieldList p) := by
  obtain ⟨hd, d⟩ := p
  rw [show Payload.encode ⟨hd, d⟩
      = optMsg 1 (hd.map Header.encode) ++ (optLen 2 d ++ []) by
    simp [Payload.encode]]
  rw [parseFields_optMsg 1 (by omega) (by omega),
    parseFields_optLen 2 (by omega) (by omega), parseFields_nil]
  rcases hd with - | h <;> simp [Payload.fieldList]

theorem Payload_decode_encode (p : Payload) :
    Payload.decode (Payload.encode p) = some p := by
  obtain ⟨hd, d⟩ := p
  rw [Payload.decode, Payload_parse_encode, Option.some_bind]
  rcases hd with - | h <;> by_cases hdd : d = [] <;>
    simp [Payload.fieldList, Payload.applyFields, Header_decode_encode, hdd]

theorem ConfigUpdateEnvelope_parse_encodeSigs :
    ∀ (ss : List ConfigSignature) (rest : Bytes),
      parseFields (ConfigUpdateEnvelope.encodeSigs ss ++ rest) =
        (parseFields rest).map
          (fun fs => ConfigUpdateEnvelope.sigFields ss ++ fs) := by
  intro ss
  induction ss with
  | nil =>
    intro rest
    cases h : parseFields rest <;>
      simp [ConfigUpdateEnvelope.encodeSigs, ConfigUpdateEnvelope.sigFields, h]
  | cons s ss ih =>
    intro rest
    rw [show ConfigUpdateEnvelope.encodeSigs (s :: ss) ++ rest
        = encLen 2 (ConfigSignature.encode s) ++
          (ConfigUpdateEnvelope.encodeSigs ss ++ rest) by
      simp [ConfigUpdateEnvelope.encodeSigs]]
    rw [parseFields_encLen 2 (by omega) (by omega), ih rest]
    cases parseFields rest <;> simp [ConfigUpdateEnvelope.sigFields]

theorem ConfigUpdateEnvelope.applyFields_sigFields :
    ∀ (ss : List ConfigSignature) (c : ConfigUpdateEnvelope) (fs : List PbField),
      ConfigUpdateEnvelope.applyFields c (ConfigUpdateEnvelope.sigFields ss ++ fs) =
        ConfigUpdateEnvelope.applyFields
          { c with signatures := c.signatures ++ ss } fs := by
  intro ss
  induction ss with
  | nil => intro c fs; simp [ConfigUpdateEnvelope.sigFields]
  | cons s ss ih =>
    intro c fs
    simp only [ConfigUpdateEnvelope.sigFields, List.cons_append]
    rw [show ConfigUpdateEnvelope.applyFields c
        ((2, FieldVal.lenDelim (ConfigSignature.encode s)) ::
          (ConfigUpdateEnvelope.sigFields ss ++ fs))
        = ConfigUpdateEnvelope.applyFields
            { c with signatures := c.signatures ++ [s] }
            (ConfigUpdateEnvelope.sigFields ss ++ fs) by
      simp [ConfigUpdateEnvelope.applyFields, ConfigSignature_decode_encode]]
    rw [ih]
    have hl : c.signatures ++ [s] ++ ss = c.signatures ++ (s :: ss) := by simp
    rw [hl]

theorem ConfigUpdateEnvelope.applyFields_sigFields_closed
    (ss : List ConfigSignature) (c : ConfigUpdateEnvelope) :
    ConfigUpdateEnvelope.applyFields c (ConfigUpdateEnvelope.sigFields ss)
      = some { c with signatures := c.signatures ++ ss } := by
  have h := ConfigUpdateEnvelope.applyFields_sigFields ss c []
  rw [List.append_nil] at h
  rw [h]
  rfl

theorem ConfigUpdateEnvelope_decode_encode (c : ConfigUpdateEnvelope) :
    ConfigUpdateEnvelope.decode (ConfigUpdateEnvelope.encode c) = some c := by
  obtain ⟨cu, ss⟩ := c
  have henc : ConfigUpdateEnvelope.encode ⟨cu, ss⟩
      = optLen 1 cu ++ (ConfigUpdateEnvelope.encodeSigs ss ++ []) := by
    simp [ConfigUpdateEnvelope.encode]
  rw [ConfigUpdateEnvelope.decode, henc,
    parseFields_optLen 1 (by omega) (by omega),
    ConfigUpdateEnvelope_parse_encodeSigs ss [], parseFields_nil]
  by_cases hcu : cu = [] <;>
    simp [hcu, ConfigUpdateEnvelope.applyFields,
      ConfigUpdateEnvelope.applyFields_sigFields_closed ss]

/-! ## Claims -/
/-- C1: the two signing scopes are as specified and distinct: on the success
path `createSignedEnvelope` passes to the signing capability exactly the
serialized message bytes (the inner data, not the assembled payload), and
`CreateConfigSignature` passes exactly the serialized signature-header bytes
concatenated with the config bytes, in that order. -/
theorem signing_scopes_exact :
    (∀ (c : DeliverConnection) (env : SignEnv) (data identity nonce : Bytes),
      env.marshalMsg = .ok data → env.identity = .ok identity →
      env.nonce = .ok nonce → env.payloadMarshal = none →
      (DeliverConnection.createSignedEnvelope c env).2 = [data]) ∧
    (∀ (env : ConfigSignEnv) (config creator nonce : Bytes),
      env.identity = .ok creator → env.nonce = .ok nonce →
      env.sigHeaderMarshal = none →
      (CreateConfigSignature env config).2
        = [SignatureHeader.encode { creator := creator, nonce := nonce } ++ config]) := by
  constructor
  · intro c env data identity nonce h1 h2 h3 h4
    rw [DeliverConnection.createSignedEnvelope]
    simp [h1, h2, h3, h4]
    cases env.sign data <;> simp
  · intro env config creator nonce h1 h2 h3
    rw [CreateConfigSignature]
    simp [h1, h2, h3]
    cases env.sign (SignatureHeader.encode { creator := creator, nonce := nonce } ++ config) <;>
      simp

/-- Witness for C1 at concrete inputs. -/
theorem signing_scopes_exact_witness :
    (DeliverConnection.createSignedEnvelope
        { channelID := [109], tlsCertHash := [171], closed := false, stream := .valid }
        { marshalMsg := .ok [5, 10], identity := .ok [7], nonce := .ok [3],
          payloadMarshal := none, sign := fun _ => .ok [42], timestamp := [8, 1] }).2
      = [[5, 10]] ∧
    (CreateConfigSignature
        { identity := .ok [7], nonce := .ok [3], sigHeaderMarshal := none,
          sign := fun _ => .ok [9] } [1, 2]).2
      = [SignatureHeader.encode { creator := [7], nonce := [3] } ++ [1, 2]] :=
  ⟨signing_scopes_exact.1 _ _ [5, 10] [7] [3] rfl rfl rfl rfl,
    signing_scopes_exact.2 _ [1, 2] [7] [3] rfl rfl rfl⟩

/-- C5: send on a closed connection fails immediately with the
connection-closed error: nothing is passed to the signer, no envelope is
constructed, and nothing is written to the stream. -/
theorem send_closed_returns_error (c : DeliverConnection) (env : SignEnv)
    (w : Except String Unit) (h : c.closed = true) :
    DeliverConnection.Send c env w = (.error "connection is closed", [], []) := by
  rw [DeliverConnection.Send, if_pos h]

/-- Witness for C5 at a concrete closed connection. -/
theorem send_closed_returns_error_witness :
    DeliverConnection.Send
        { channelID := [109], tlsCertHash := [], closed := true, stream := .valid }
        { marshalMsg := .ok [5], identity := .ok [7], nonce := .ok [3],
          payloadMarshal := none, sign := fun _ => .ok [9], timestamp := [] }
        (.ok ())
      = (.error "connection is closed", [], []) :=
  send_closed_returns_error _ _ _ rfl

/-- C7: each layer's deserialization failure aborts `ExtractChannelConfig`
with that layer's wrapped error and no partial result, and the three layer
errors are pairwise distinguishable. -/
theorem extract_layer_errors :
    (∀ b : Bytes, Envelope.decode b = none →
      ExtractChannelConfig b = .error .configEnvelope) ∧
    (∀ (b : Bytes) (env : Envelope), Envelope.decode b = some env →
      Payload.decode env.payload = none →
      ExtractChannelConfig b = .error .envelopePayload) ∧
    (∀ (b : Bytes) (env : Envelope) (p : Payload), Envelope.decode b = some env →
      Payload.decode env.payload = some p →
      ConfigUpdateEnvelope.decode p.data = none →
      ExtractChannelConfig b = .error .configUpdateEnvelope) ∧
    (UnwrapError.goMessage .configEnvelope ≠ UnwrapError.goMessage .envelopePayload ∧
      UnwrapError.goMessage .configEnvelope ≠ UnwrapError.goMessage .configUpdateEnvelope ∧
      UnwrapError.goMessage .envelopePayload ≠ UnwrapError.goMessage .configUpdateEnvelope) := by
  refine ⟨?_, ?_, ?_, by decide⟩
  · intro b h
    rw [ExtractChannelConfig, h]
  · intro b env h1 h2
    rw [ExtractChannelConfig, h1]
    simp only [h2]
  · intro b env p h1 h2 h3
    rw [ExtractChannelConfig, h1]
    simp only [h2, h3]

/-- Witness for C7: concrete inputs failing at each of the three layers
(the byte 255 starts a truncated varint, so it is malformed at any layer). -/
theorem extract_layer_errors_witness :
    ExtractChannelConfig [255] = .error .configEnvelope ∧
    ExtractChannelConfig (Envelope.encode { payload := [255], signature := [] })
      = .error .envelopePayload ∧
    ExtractChannelConfig
        (Envelope.encode
          { payload := Payload.encode { header := none, data := [255] },
            signature := [] })
      = .error .configUpdateEnvelope :=
  ⟨extract_layer_errors.1 [255] rfl,
    extract_layer_errors.2.1 _ { payload := [255], signature := [] } rfl rfl,
    extract_layer_errors.2.2.1 _
      { payload := Payload.encode { header := none, data := [255] }, signature := [] }
      { header := none, data := [255] } rfl rfl rfl⟩

/-- C8: `ExtractChannelConfig` round-trips: wrapping any payload in a config
update envelope, a payload structure and a serialized envelope and then
unwrapping returns exactly that payload. -/
theorem extract_roundtrip (configUpdate : Bytes) (sigs : List ConfigSignature)
    (hd : Option Header) (signature : Bytes) :
    ExtractChannelConfig
        (Envelope.encode
          { payload := Payload.encode
              { header := hd,
                data := ConfigUpdateEnvelope.encode
                  { configUpdate := configUpdate, signatures := sigs } },
            signature := signature })
      = .ok configUpdate := by
  rw [ExtractChannelConfig, Envelope_decode_encode]
  simp only [Payload_decode_encode, ConfigUpdateEnvelope_decode_encode]

/-- C10: an input on which all three layers deserialize successfully but no
config update is present — here the empty byte sequence, which deserializes
to the zero value of every message — yields success with an empty result, not
an error: no presence validation is performed. -/
theorem extract_empty_ok :
    ExtractChannelConfig [] = .ok [] ∧
    Envelope.decode [] = some { payload := [], signature := [] } ∧
    Payload.decode [] = some { header := none, data := [] } ∧
    ConfigUpdateEnvelope.decode [] = some { configUpdate := [], signatures := [] } :=
  ⟨rfl, rfl, rfl, rfl⟩

theorem LoopResult.events_consEvent {μ : Type} (e : RecvEvent μ) (r : LoopResult μ) :
    (r.consEvent e).events = e :: r.events := by
  cases r <;> rfl

/-- C3: if the closed flag is observed true after a read returns, the loop
terminates without emitting any event for that read, whatever that read's own
outcome was; messages forwarded on earlier iterations are unaffected and
nothing after the closing iteration is read. -/
theorem receive_closed_after_read_discards (μ : Type) (pre : List μ) (s : Step μ)
    (rest : List (Step μ)) (hstream : s.stream = .valid)
    (hclosed : s.closedAfter = true) :
    DeliverConnection.Receive (pre.map msgStep ++ s :: rest)
      = .terminated (pre.map RecvEvent.msg) := by
  induction pre with
  | nil =>
    simp only [List.map_nil, List.nil_append]
    rw [DeliverConnection.Receive, hstream]
    simp [hclosed]
  | cons m ms ih =>
    simp only [List.map_cons, List.cons_append]
    rw [DeliverConnection.Receive]
    simp [msgStep, ih, LoopResult.consEvent]

/-- Witness for C3: a successful in-flight read is discarded when the
connection closes underneath it. -/
theorem receive_closed_after_read_discards_witness :
    DeliverConnection.Receive
        ([3, 4].map msgStep ++
          ({ stream := .valid, read := .msg 7, closedAfter := true } : Step Nat) ::
            [msgStep 9])
      = .terminated ([3, 4].map RecvEvent.msg) :=
  receive_closed_after_read_discards Nat [3, 4] _ [msgStep 9] rfl rfl

/-- C9: every successfully read message is forwarded, in order and
unmodified, and a final end-of-stream read on a still-open connection
terminates the loop silently, with nothing read or emitted afterwards. -/
theorem receive_forwards_then_eof (μ : Type) (msgs : List μ) (rest : List (Step μ)) :
    DeliverConnection.Receive (msgs.map msgStep ++
        { stream := .valid, read := .eof, closedAfter := false } :: rest)
      = .terminated (msgs.map RecvEvent.msg) := by
  induction msgs with
  | nil =>
    simp only [List.map_nil, List.nil_append]
    rw [DeliverConnection.Receive]
    simp
  | cons m ms ih =>
    simp only [List.map_cons, List.cons_append]
    rw [DeliverConnection.Receive]
    simp [msgStep, ih, LoopResult.consEvent]

theorem receive_disconnected_count {μ : Type} :
    ∀ trace : List (Step μ),
      ((DeliverConnection.Receive trace).events.countP
        (fun ev => RecvEvent.isDisconnected ev)) ≤ 1 := by
  intro trace
  induction trace with
  | nil => simp [DeliverConnection.Receive, LoopResult.events]
  | cons s rest ih =>
    rw [DeliverConnection.Receive]
    cases s.stream with
    | noStream => simp [LoopResult.events]
    | wrongType => simp [LoopResult.events]
    | valid =>
      by_cases hc : s.closedAfter
      · simp [hc, LoopResult.events]
      · rw [if_neg hc]
        cases s.read with
        | eof => simp [LoopResult.events]
        | fail e => simp [LoopResult.events, RecvEvent.isDisconnected]
        | msg m =>
          rw [LoopResult.events_consEvent, List.countP_cons]
          simpa [RecvEvent.isDisconnected] using ih

theorem receive_fail_emits {μ : Type} (pre : List μ) (e : String)
    (rest : List (Step μ)) :
    DeliverConnection.Receive (pre.map msgStep ++
        { stream := .valid, read := .fail e, closedAfter := false } :: rest)
      = .terminated (pre.map RecvEvent.msg ++ [RecvEvent.disconnected e]) := by
  induction pre with
  | nil =>
    simp only [List.map_nil, List.nil_append]
    rw [DeliverConnection.Receive]
    simp
  | cons m ms ih =>
    simp only [List.map_cons, List.cons_append]
    rw [DeliverConnection.Receive]
    simp [msgStep, ih, LoopResult.consEvent]

theorem receive_disconnected_source {μ : Type} :
    ∀ (trace : List (Step μ)) (e : String),
      RecvEvent.disconnected e ∈ (DeliverConnection.Receive trace).events →
      ∃ s ∈ trace, s.stream = .valid ∧ s.closedAfter = false ∧ s.read = .fail e := by
  intro trace
  induction trace with
  | nil => intro e h; simp [DeliverConnection.Receive, LoopResult.events] at h
  | cons s rest ih =>
    intro e h
    rw [DeliverConnection.Receive] at h
    cases hst : s.stream with
    | noStream => rw [hst] at h; simp [LoopResult.events] at h
    | wrongType => rw [hst] at h; simp [LoopResult.events] at h
    | valid =>
      rw [hst] at h
      by_cases hc : s.closedAfter
      · rw [if_pos hc] at h; simp [LoopResult.events] at h
      · rw [if_neg hc] at h
        cases hr : s.read with
        | eof => rw [hr] at h; simp [LoopResult.events] at h
        | fail e2 =>
          rw [hr] at h
          simp only [LoopResult.events, List.mem_singleton,
            RecvEvent.disconnected.injEq] at h
          subst h
          exact ⟨s, by simp, hst, by simpa using hc, hr⟩
        | msg m =>
          rw [hr] at h
          rw [LoopResult.events_consEvent] at h
          rcases List.mem_cons.mp h with h1 | h2
          · exact absurd h1 (by simp)
          · obtain ⟨t, ht, hprops⟩ := ih e h2
            exact ⟨t, by simp [ht], hprops⟩

/-- C4: at most one disconnected event is ever emitted per execution of the
receive loop; a read failing with a non-end-of-stream error (on a live stream
of an open connection) emits exactly one disconnected event carrying that
error as the final event, after which nothing further is read or sent; and
every disconnected event in the channel stems from such a failed read. -/
theorem receive_single_disconnected :
    (∀ (μ : Type) (trace : List (Step μ)),
      ((DeliverConnection.Receive trace).events.countP
        (fun ev => RecvEvent.isDisconnected ev)) ≤ 1) ∧
    (∀ (μ : Type) (pre : List μ) (e : String) (rest : List (Step μ)),
      DeliverConnection.Receive (pre.map msgStep ++
          { stream := .valid, read := .fail e, closedAfter := false } :: rest)
        = .terminated (pre.map RecvEvent.msg ++ [RecvEvent.disconnected e])) ∧
    (∀ (μ : Type) (trace : List (Step μ)) (e : String),
      RecvEvent.disconnected e ∈ (DeliverConnection.Receive trace).events →
      ∃ s ∈ trace, s.stream = .valid ∧ s.closedAfter = false ∧ s.read = .fail e) :=
  ⟨fun _ trace => receive_disconnected_count trace,
    fun _ pre e rest => receive_fail_emits pre e rest,
    fun _ trace e h => receive_disconnected_source trace e h⟩

/-- Witness for C4: a concrete failed read emits its disconnected event and
is recoverable from the event list. -/
theorem receive_single_disconnected_witness :
    ∃ s ∈ [msgStep 1,
        ({ stream := .valid, read := .fail "boom", closedAfter := false } : Step Nat),
        msgStep 9],
      s.stream = .valid ∧ s.closedAfter = false ∧ s.read = .fail "boom" :=
  receive_single_disconnected.2.2 Nat
    [msgStep 1, { stream := .valid, read := .fail "boom", closedAfter := false },
      msgStep 9] "boom" (by decide)

/-- C6: for every seek specification sent on a non-closed connection with a
valid stream, the written envelope carries the produced signature, and its
payload deserializes to the serialized seek specification together with a
channel header of type deliver-seek-info (5), version 0, epoch 0, the
connection's channel identifier and its TLS certificate hash. -/
theorem send_envelope_contents (c : DeliverConnection) (env : SignEnv)
    (data identity nonce signature : Bytes) (w : Except String Unit)
    (hc : c.closed = false) (hs : c.stream = .valid)
    (h1 : env.marshalMsg = .ok data) (h2 : env.identity = .ok identity)
    (h3 : env.nonce = .ok nonce) (h4 : env.payloadMarshal = none)
    (h5 : env.sign data = .ok signature) :
    ∃ e : Envelope, (DeliverConnection.Send c env w).2.2 = [e] ∧
      e.signature = signature ∧
      ∃ p : Payload, Payload.decode e.payload = some p ∧ p.data = data ∧
      ∃ hd : Header, p.header = some hd ∧
      ∃ ch : ChannelHeader, ChannelHeader.decode hd.channelHeader = some ch ∧
        ch.type = 5 ∧ ch.version = 0 ∧ ch.epoch = 0 ∧
        ch.channelId = c.channelID ∧ ch.tlsCertHash = c.tlsCertHash := by
  have hE : DeliverConnection.createSignedEnvelope c env
      = (Outcome.ok
          { payload :=
              Payload.encode
                { header :=
                    some
                      { channelHeader :=
                          ChannelHeader.encode
                            { type := 5, version := 0,
                              timestamp := some env.timestamp,
                              channelId := c.channelID, epoch := 0,
                              tlsCertHash := c.tlsCertHash },
                        signatureHeader :=
                          SignatureHeader.encode
                            { creator := identity, nonce := nonce } },
                  data := data },
            signature := signature },
          [data]) := by
    rw [DeliverConnection.createSignedEnvelope]
    simp [h1, h2, h3, h4, h5]
  rw [DeliverConnection.Send, if_neg (by simp [hc]), hE]
  simp only [hs]
  cases w <;>
    exact ⟨_, rfl, rfl, _, Payload_decode_encode _, rfl, _, rfl, _,
      ChannelHeader_decode_encode _, rfl, rfl, rfl, rfl, rfl⟩

/-- Witness for C6 at the spec's concrete scenario: channel "my" (bytes
109,121), fingerprint bytes 171,205, seek bytes 5,10. -/
theorem send_envelope_contents_witness :
    ∃ e : Envelope,
      (DeliverConnection.Send
          { channelID := [109, 121], tlsCertHash := [171, 205], closed := false,
            stream := .valid }
          { marshalMsg := .ok [5, 10], identity := .ok [7], nonce := .ok [3],
            payloadMarshal := none, sign := fun _ => .ok [42], timestamp := [8, 1] }
          (.ok ())).2.2 = [e] ∧
      e.signature = [42] ∧
      ∃ p : Payload, Payload.decode e.payload = some p ∧ p.data = [5, 10] ∧
      ∃ hd : Header, p.header = some hd ∧
      ∃ ch : ChannelHeader, ChannelHeader.decode hd.channelHeader = some ch ∧
        ch.type = 5 ∧ ch.version = 0 ∧ ch.epoch = 0 ∧
        ch.channelId = [109, 121] ∧ ch.tlsCertHash = [171, 205] :=
  send_envelope_contents _ _ [5, 10] [7] [3] [42] _ rfl rfl rfl rfl rfl rfl rfl

theorem createSignedEnvelope_no_crash (c : DeliverConnection) (env : SignEnv)
    (hp : env.payloadMarshal = none) (m : String) :
    (DeliverConnection.createSignedEnvelope c env).1 ≠ .crash m := by
  rw [DeliverConnection.createSignedEnvelope]
  cases h1 : env.marshalMsg with
  | error e => simp
  | ok data =>
    cases h2 : env.identity with
    | error e => simp
    | ok identity =>
      cases h3 : env.nonce with
      | error e => simp
      | ok nonce =>
        simp [hp]
        cases env.sign data <;> simp

theorem receive_no_crash {μ : Type} :
    ∀ trace : List (Step μ), (∀ s ∈ trace, s.stream ≠ .wrongType) →
      ∀ evs, DeliverConnection.Receive trace ≠ .crashed evs := by
  intro trace
  induction trace with
  | nil => intro h evs; simp [DeliverConnection.Receive]
  | cons s rest ih =>
    intro h evs
    have hs : s.stream ≠ .wrongType := h s (by simp)
    rw [DeliverConnection.Receive]
    cases hst : s.stream with
    | wrongType => exact absurd hst hs
    | noStream => simp
    | valid =>
      by_cases hc : s.closedAfter
      · simp [hc]
      · rw [if_neg hc]
        cases s.read with
        | eof => simp
        | fail e => simp
        | msg m =>
          intro hcontra
          cases hr : DeliverConnection.Receive rest with
          | crashed es =>
            exact ih (fun t ht => h t (List.mem_cons_of_mem s ht)) es hr
          | terminated es =>
            rw [hr] at hcontra
            simp [LoopResult.consEvent] at hcontra
          | exhausted es =>
            rw [hr] at hcontra
            simp [LoopResult.consEvent] at hcontra

/-- C2 is false on the code as stated: send on a non-closed connection whose
stream handle is nil panics (a method call on a nil interface), and a payload
serialization failure inside the envelope builder panics (`MarshalOrPanic`);
neither failure is returned as an error value or emitted as an event, and
neither is the deliverStream type assertion. -/
theorem send_crash_counterexample :
    (DeliverConnection.Send
        { channelID := [1], tlsCertHash := [], closed := false, stream := .noStream }
        { marshalMsg := .ok [5], identity := .ok [7], nonce := .ok [3],
          payloadMarshal := none, sign := fun _ => .ok [9], timestamp := [] }
        (.ok ())).1
      = .crash "invalid memory address or nil pointer dereference" ∧
    (DeliverConnection.createSignedEnvelope
        { channelID := [1], tlsCertHash := [], closed := false, stream := .valid }
        { marshalMsg := .ok [5], identity := .ok [7], nonce := .ok [3],
          payloadMarshal := some "marshal failed", sign := fun _ => .ok [9],
          timestamp := [] }).1
      = .crash "marshal failed" := ⟨rfl, rfl⟩

/-- C2 (amended): apart from the `deliverStream` type-assertion check, a send
on a non-closed connection whose stream handle is nil, and a
payload-serialization failure inside the envelope builder, no operation of
this core aborts: send never crashes when the stream handle is valid and the
payload marshals, and the receive loop never crashes on a trace free of
wrong-typed stream observations. -/
theorem no_crash_outside_documented_aborts :
    (∀ (c : DeliverConnection) (env : SignEnv) (w : Except String Unit),
      c.stream = .valid → env.payloadMarshal = none →
      ∀ m, (DeliverConnection.Send c env w).1 ≠ .crash m) ∧
    (∀ (μ : Type) (trace : List (Step μ)),
      (∀ s ∈ trace, s.stream ≠ .wrongType) →
      ∀ evs, DeliverConnection.Receive trace ≠ .crashed evs) := by
  constructor
  · intro c env w hs hp m
    rw [DeliverConnection.Send]
    by_cases hc : c.closed
    · simp [hc]
    · rw [if_neg hc]
      cases hE : DeliverConnection.createSignedEnvelope c env with
      | mk o log =>
        cases o with
        | error e => simp
        | crash mm =>
          exfalso
          exact createSignedEnvelope_no_crash c env hp mm (by rw [hE])
        | ok e =>
          simp only [hs]
          cases w <;> simp
  · intro μ trace h evs
    exact receive_no_crash trace h evs

/-- Witness for C2 (amended) at concrete inputs. -/
theorem no_crash_outside_documented_aborts_witness :
    (DeliverConnection.Send
        { channelID := [1], tlsCertHash := [], closed := false, stream := .valid }
        { marshalMsg := .ok [5], identity := .ok [7], nonce := .ok [3],
          payloadMarshal := none, sign := fun _ => .ok [9], timestamp := [] }
        (.ok ())).1 ≠ .crash "x" ∧
    DeliverConnection.Receive
        [msgStep (1 : Nat),
          { stream := .noStream, read := .eof, closedAfter := false }]
      ≠ .crashed [] :=
  ⟨no_crash_outside_documented_aborts.1 _ _ _ rfl rfl "x",
    no_crash_outside_documented_aborts.2 Nat _ (by decide) []⟩
